import Mathlib

/-!
Verification of the personal-assistant chatbot repository.

The definitions below are a shallow embedding of the repository
TypeScript frontend (`frontend/app/page.tsx`, the MCP settings dialog,
and the NextAuth `jwt` callback).  Parts of the backend that the
repository documents but whose code is not present (the Flask chat
orchestrator, the tool-update handler and the MCP-server registration
handler) are modelled from the specification; each such definition says
so in its doc comment.
-/

/-- Message role as in the frontend `Message` interface. -/
inductive Role
  | user
  | assistant
deriving DecidableEq, Repr

/-- A chat message as held in the frontend `messages` state. -/
structure Message where
  role : Role
  content : String
deriving DecidableEq, Repr

/-- State of the streaming chat consumer in `handleSubmit`:
the `messages` React state and the local `accumulatedContent` variable. -/
structure ChatState where
  messages : List Message
  accumulated : String
deriving DecidableEq, Repr

/-- Embeds `newMessages[newMessages.length - 1] = m` after spreading:
replace the last element of the list.  On an empty array the JS
assignment at index `-1` adds no element, so the list is unchanged. -/
def replaceLast (ms : List Message) (m : Message) : List Message :=
  match ms with
  | [] => []
  | _ :: _ => ms.dropLast ++ [m]

/-- Embeds the start of `handleSubmit`: append the user message and an
empty assistant message, reset the content accumulator. -/
def startTurn (prev : List Message) (userMessage : String) : ChatState :=
  { messages := prev ++ [⟨Role.user, userMessage⟩, ⟨Role.assistant, ""⟩]
    accumulated := "" }

/-- A parsed SSE frame: the JSON object may carry a `content` and/or an
`error` field. -/
structure SseFrame where
  content : Option String := none
  error : Option String := none
deriving DecidableEq, Repr

/-- Embeds the body of the SSE loop in `handleSubmit` that handles one
parsed frame: a truthy `content` (non-empty string) is appended to the
accumulator and the last message is replaced with the accumulated
content; a truthy `error` replaces the content of the last message with
`Error: ` followed by the error string. -/
def applyFrame (st : ChatState) (f : SseFrame) : ChatState :=
  let st1 :=
    match f.content with
    | some c =>
        if c = "" then st
        else
          { messages := replaceLast st.messages ⟨Role.assistant, st.accumulated ++ c⟩
            accumulated := st.accumulated ++ c }
    | none => st
  match f.error with
  | some e =>
      if e = "" then st1
      else { st1 with messages := replaceLast st1.messages ⟨Role.assistant, "Error: " ++ e⟩ }
  | none => st1

/-- Embeds the per-line handling of `handleSubmit`: a line is acted on
only when it starts with `data: `; its payload (the line minus the
6-character prefix) goes through `JSON.parse`, modelled by the
`parse` parameter; a parse failure is caught and leaves the state
unchanged. -/
def processLine (parse : String → Option SseFrame) (st : ChatState) (line : String) : ChatState :=
  if line.startsWith "data: " then
    match parse (line.drop 6) with
    | some f => applyFrame st f
    | none => st
  else st

/-- Embeds one chunk iteration of `handleSubmit`: split the chunk on
newlines and process each line in order. -/
def processChunk (parse : String → Option SseFrame) (st : ChatState) (chunk : String) :
    ChatState :=
  (chunk.splitOn "\n").foldl (processLine parse) st

/-- The body sent by `handleSubmit` to `POST /chat`:
`JSON.stringify({ message: userMessage })`. -/
structure ChatRequestBody where
  message : String
deriving DecidableEq, Repr

/-- Embeds the request construction in `handleSubmit`.  The `history`
parameter is the `messages` state in scope at the call; the body built
from it uses only the new user message. -/
def buildChatRequest (userMessage : String) (history : List Message) : ChatRequestBody :=
  { message := userMessage }

/-- A tool row as in the frontend `Tool` interface. -/
structure Tool where
  id : Nat
  name : String
  description : String
  default_context : String
  custom_context : Option String
  enabled : Bool
  source : String
  mcp_server_name : Option String
  tool_schema : Option String
deriving DecidableEq, Repr

/-- Embeds `tool.custom_context || tool.default_context` from
`handleToolEdit`: JavaScript `||` falls back when `custom_context` is
`null` or the empty string. -/
def effectiveContext (t : Tool) : String :=
  match t.custom_context with
  | some c => if c = "" then t.default_context else c
  | none => t.default_context

/-- Body of a `PUT /tools/:id` request: each field is present only when
the caller supplies it. -/
structure ToolUpdate where
  enabled : Option Bool := none
  custom_context : Option String := none
deriving DecidableEq, Repr

/-- Embeds the body sent by `handleToolToggle`:
`JSON.stringify({ enabled: !tool.enabled })`. -/
def toggleBody (t : Tool) : ToolUpdate :=
  { enabled := some (!t.enabled) }

/-- Embeds the body sent by `handleToolSave`:
`JSON.stringify({ custom_context: editContext })`. -/
def saveBody (editContext : String) : ToolUpdate :=
  { custom_context := some editContext }

/-- Modelled from the spec: the backend handler of
`update a tool: (id, \x7benabled?, customContext?\x7d) → updated Tool`
(the Flask `PUT /tools/:id` route is not under `src/`); it applies
exactly the fields present in the request body and leaves every other
field of the Tool unchanged. -/
def updateTool (t : Tool) (u : ToolUpdate) : Tool :=
  { t with
    enabled := u.enabled.getD t.enabled
    custom_context :=
      match u.custom_context with
      | some c => some c
      | none => t.custom_context }

/-- Transport of a remote MCP server. -/
inductive Transport
  | stdio
  | http
deriving DecidableEq, Repr

/-- A remote tool server row as in the frontend `MCPServer` interface. -/
structure RemoteToolServer where
  name : String
  transport : Transport
  command : Option String := none
  args : List String := []
  env : List (String × String) := []
  url : Option String := none
  headers : List (String × String) := []
deriving DecidableEq, Repr

/-- Modelled from the spec: the backend
`register(spec) → ServerId | ValidationError` operation of the Remote
Tool-Server Manager (the Flask `POST /mcp-servers` route is not under
`src/`).  Malformed input — `transport=http` without a `url`, or
`transport=stdio` without a `command` — is rejected synchronously with
a `ValidationError` and no part of it is applied: the server table is
returned unchanged only through the error, no row is added. -/
def registerServer (table : List RemoteToolServer) (s : RemoteToolServer) :
    Except String (List RemoteToolServer) :=
  match s.transport, s.url, s.command with
  | Transport.http, none, _ => Except.error "ValidationError: http transport requires url"
  | Transport.stdio, _, none => Except.error "ValidationError: stdio transport requires command"
  | _, _, _ => Except.ok (table ++ [s])

/-- Embeds the JavaScript `split(' ')` built-in: split the string on
each single space character, keeping empty tokens between consecutive
separators, as `Array.prototype.split` does. -/
def jsSplitSpace (s : String) : List String :=
  (s.toList.splitOn ' ').map (fun cs => String.mk cs)

/-- Embeds the JavaScript `trim()` built-in: remove whitespace from
both ends of the string. -/
def jsTrim (s : String) : String :=
  String.mk (((s.toList.dropWhile Char.isWhitespace).reverse.dropWhile
    Char.isWhitespace).reverse)

/-- Embeds `newServerArgs ? newServerArgs.split(' ').filter(arg => arg.trim()) : []`
from `handleAddMcpServer`: an empty input is falsy and yields no args;
otherwise the input is split on single spaces and tokens whose trimmed
form is empty (falsy) are dropped. -/
def parseArgs (input : String) : List String :=
  if input = "" then []
  else (jsSplitSpace input).filter (fun a => jsTrim a != "")

/-- Request body built by `handleAddMcpServer` for `POST /mcp-servers`. -/
structure McpRegistrationBody where
  name : String
  transport : Transport
  command : Option String := none
  args : Option (List String) := none
  env : Option (List (String × String)) := none
  url : Option String := none
  headers : Option (List (String × String)) := none
deriving DecidableEq, Repr

/-- Embeds the guards and body construction of `handleAddMcpServer`
(lines 107–126): an empty name, an empty command for stdio, or an empty
url for http make the handler return without sending any request
(`none`); otherwise the transport-specific registration body is built. -/
def handleAddMcpServer (name command argsInput url : String) (transport : Transport) :
    Option McpRegistrationBody :=
  if name = "" then none
  else if transport = Transport.stdio ∧ command = "" then none
  else if transport = Transport.http ∧ url = "" then none
  else
    some
      (match transport with
       | Transport.stdio =>
           { name := name, transport := transport, command := some command
             args := some (parseArgs argsInput), env := some [] }
       | Transport.http =>
           { name := name, transport := transport, url := some url, headers := some [] })

/-- Embeds `toggleServerExpanded` from the MCP settings dialog: copy the
set, then delete the id if present, else add it. -/
def toggleServerExpanded (serverId : String) (s : Finset String) : Finset String :=
  if serverId ∈ s then s.erase serverId else insert serverId s

/-- The OAuth account payload delivered on initial sign-in, as read by
the NextAuth `jwt` callback. -/
structure OAuthAccount where
  access_token : Option String := none
  id_token : Option String := none
  refresh_token : Option String := none
  expires_at : Option Nat := none
deriving DecidableEq, Repr

/-- The NextAuth JWT token record, as read and produced by the `jwt`
callback.  `expiresAt` is in seconds; times compared against
`Date.now()` are in milliseconds. -/
structure JwtToken where
  accessToken : Option String := none
  idToken : Option String := none
  refreshToken : Option String := none
  expiresAt : Option Nat := none
  error : Option String := none
deriving DecidableEq, Repr

/-- Outcome of the token-endpoint refresh request performed by the
`jwt` callback (the external HTTP call, abstracted). -/
inductive RefreshOutcome
  | ok (access_token : String) (id_token : Option String) (expires_in : Nat)
      (refresh_token : Option String)
  | failed
deriving DecidableEq, Repr

/-- Embeds the refresh branch of the `jwt` callback: on success the new
tokens and a fresh expiry (`now/1000 + expires_in`) are stored, keeping
the old refresh token when none is returned; on failure the token is
returned with `error = RefreshTokenError`. -/
def applyRefresh (nowMs : Nat) (token : JwtToken) (r : RefreshOutcome) : JwtToken :=
  match r with
  | RefreshOutcome.ok a i e rt =>
      { token with
        accessToken := some a
        idToken := i
        expiresAt := some (nowMs / 1000 + e)
        refreshToken :=
          match rt with
          | some s => some s
          | none => token.refreshToken }
  | RefreshOutcome.failed => { token with error := some "RefreshTokenError" }

/-- Embeds the NextAuth `jwt` callback (auth.ts, reproduced in the
repository README): on initial sign-in the account tokens and expiry
are cached on the JWT; afterwards the cached token is returned as long
as `Date.now() < expiresAt * 1000 - 60000` (JavaScript truthiness: an
absent or zero `expiresAt` fails the guard); otherwise a refresh is
attempted, or an error token returned when no refresh token exists. -/
def jwtCallback (nowMs : Nat) (token : JwtToken) (account : Option OAuthAccount)
    (r : RefreshOutcome) : JwtToken :=
  match account with
  | some a =>
      { token with
        accessToken := a.access_token
        idToken := a.id_token
        refreshToken := a.refresh_token
        expiresAt := a.expires_at }
  | none =>
      match token.expiresAt with
      | some e =>
          if e ≠ 0 ∧ (nowMs : Int) < (e : Int) * 1000 - 60000 then token
          else
            match token.refreshToken with
            | none => { token with error := some "RefreshTokenMissing" }
            | some _ => applyRefresh nowMs token r
      | none =>
          match token.refreshToken with
          | none => { token with error := some "RefreshTokenMissing" }
          | some _ => applyRefresh nowMs token r

/-- Uniform provider events, as described by the Provider Adapter
contract of the spec. -/
inductive ProviderEvent
  | tokenDelta (text : String)
  | toolCallRequested (callId toolName argsJson : String)
  | finished
  | providerError (msg : String)
deriving DecidableEq, Repr

/-- Outbound stream events, as in the `StreamEvent` data model of the spec. -/
inductive StreamEvent
  | contentDelta (s : String)
  | error (s : String)
  | done
deriving DecidableEq, Repr

/-- True on `error` frames. -/
def isErrorFrame : StreamEvent → Bool
  | StreamEvent.error _ => true
  | _ => false

/-- A provider event sequence is well formed when it eventually carries
a terminator (`Finished` or `ProviderError`); the Provider Adapter of
the spec never ends a stream silently. -/
def hasTerminator : List ProviderEvent → Bool
  | [] => false
  | ProviderEvent.finished :: _ => true
  | ProviderEvent.providerError _ :: _ => true
  | _ :: rest => hasTerminator rest

/-- Modelled from the spec: the Chat Orchestrator turn state machine
(the Flask chat route is not under `src/`).  Each `TokenDelta` is
forwarded as a `contentDelta`; a `ToolCallRequested` dispatches the
tool, appends its result and re-enters streaming, bounded by the
iteration cap, which on exhaustion emits one `error` and terminates;
`Finished` emits the terminal `done`; `ProviderError` emits one
`error` followed by stream termination. -/
def runTurn : Nat → List ProviderEvent → List StreamEvent
  | _, [] => []
  | cap, ProviderEvent.tokenDelta t :: rest => StreamEvent.contentDelta t :: runTurn cap rest
  | 0, ProviderEvent.toolCallRequested _ _ _ :: _ => [StreamEvent.error "tool-loop limit exceeded"]
  | Nat.succ cap, ProviderEvent.toolCallRequested _ _ _ :: rest => runTurn cap rest
  | _, ProviderEvent.finished :: _ => [StreamEvent.done]
  | _, ProviderEvent.providerError m :: _ => [StreamEvent.error m]

/-- Helper: on a provider stream carrying a terminator, the emitted
stream is a block of content deltas closed by a single terminal frame,
either `done` or one `error`. -/
theorem runTurn_shape (cap : Nat) (evs : List ProviderEvent)
    (h : hasTerminator evs = true) :
    (∃ pre, runTurn cap evs = pre ++ [StreamEvent.done] ∧
        ∀ x ∈ pre, ∃ s, x = StreamEvent.contentDelta s) ∨
      (∃ pre m, runTurn cap evs = pre ++ [StreamEvent.error m] ∧
        ∀ x ∈ pre, ∃ s, x = StreamEvent.contentDelta s) := by
  induction evs generalizing cap with
  | nil => simp [hasTerminator] at h
  | cons ev rest ih =>
    cases ev with
    | tokenDelta t =>
      have h' : hasTerminator rest = true := by simpa [hasTerminator] using h
      rcases ih cap h' with ⟨pre, heq, hall⟩ | ⟨pre, m, heq, hall⟩
      · refine Or.inl ⟨StreamEvent.contentDelta t :: pre, by simp [runTurn, heq], ?_⟩
        intro x hx
        rcases List.mem_cons.mp hx with rfl | hx'
        · exact ⟨t, rfl⟩
        · exact hall x hx'
      · refine Or.inr ⟨StreamEvent.contentDelta t :: pre, m, by simp [runTurn, heq], ?_⟩
        intro x hx
        rcases List.mem_cons.mp hx with rfl | hx'
        · exact ⟨t, rfl⟩
        · exact hall x hx'
    | toolCallRequested cid tn aj =>
      have h' : hasTerminator rest = true := by simpa [hasTerminator] using h
      cases cap with
      | zero =>
        exact Or.inr ⟨[], "tool-loop limit exceeded", by simp [runTurn], by simp⟩
      | succ c => simpa [runTurn] using ih c h'
    | finished => exact Or.inl ⟨[], by simp [runTurn], by simp⟩
    | providerError m => exact Or.inr ⟨[], m, by simp [runTurn], by simp⟩

/-- C3: every stream emitted for a chat turn over a well-formed
provider stream ends with the terminal `done` or with exactly one
`error` frame — never with neither, and never with more than one
`error` frame. -/
theorem chat_stream_done_or_single_error (cap : Nat) (evs : List ProviderEvent)
    (h : hasTerminator evs = true) :
    ((∃ pre, runTurn cap evs = pre ++ [StreamEvent.done] ∧
        ∀ x ∈ pre, ∃ s, x = StreamEvent.contentDelta s) ∨
      (∃ pre m, runTurn cap evs = pre ++ [StreamEvent.error m] ∧
        ∀ x ∈ pre, ∃ s, x = StreamEvent.contentDelta s)) ∧
    (runTurn cap evs).countP (fun x => isErrorFrame x) ≤ 1 := by
  have main := runTurn_shape cap evs h
  refine ⟨main, ?_⟩
  rcases main with ⟨pre, heq, hall⟩ | ⟨pre, m, heq, hall⟩ <;> rw [heq, List.countP_append]
  · have h0 : pre.countP (fun x => isErrorFrame x) = 0 := by
      rw [List.countP_eq_zero]
      intro a ha
      rcases hall a ha with ⟨s, rfl⟩
      exact fun hcontra => Bool.noConfusion hcontra
    have h1 : List.countP (fun x => isErrorFrame x) [StreamEvent.done] = 0 := rfl
    rw [h0, h1]
    decide
  · have h0 : pre.countP (fun x => isErrorFrame x) = 0 := by
      rw [List.countP_eq_zero]
      intro a ha
      rcases hall a ha with ⟨s, rfl⟩
      exact fun hcontra => Bool.noConfusion hcontra
    have h1 : List.countP (fun x => isErrorFrame x) [StreamEvent.error m] = 1 := rfl
    rw [h0, h1]

/-- Witness for C3 at a concrete provider stream. -/
theorem chat_stream_done_or_single_error_witness :
    (runTurn 5 [ProviderEvent.tokenDelta "4", ProviderEvent.finished]).countP
      (fun x => isErrorFrame x) ≤ 1 :=
  (chat_stream_done_or_single_error 5
    [ProviderEvent.tokenDelta "4", ProviderEvent.finished] rfl).2

/-- C1 counterexample: after a `contentDelta "4"` frame and then an
`error "boom"` frame, the displayed assistant message is
`Error: boom`, which does not contain the previously accumulated
delta `4` — the prior delta is replaced, not retained. -/
theorem error_frame_replaces_deltas_counterexample :
    ((applyFrame (applyFrame (startTurn [] "2+2?") { content := some "4" })
        { error := some "boom" }).messages.getLast? =
      some ⟨Role.assistant, "Error: boom"⟩) ∧
    ¬ '4' ∈ ("Error: boom").toList := by
  exact ⟨rfl, by decide⟩

/-- C1 (amended): on an error frame the caller replaces the displayed
assistant message content with `Error: ` followed by the error
string — the previously emitted deltas are removed from the display —
while the internal content accumulator is retained unchanged. -/
theorem error_frame_replaces_display_retains_accumulator (st : ChatState) (e : String)
    (he : e ≠ "") :
    (applyFrame st { error := some e }).messages =
      replaceLast st.messages ⟨Role.assistant, "Error: " ++ e⟩ ∧
    (applyFrame st { error := some e }).accumulated = st.accumulated := by
  simp [applyFrame, he]

/-- Witness for the amended C1 at a concrete state and error string. -/
theorem error_frame_replaces_display_retains_accumulator_witness :
    ("boom" : String) ≠ "" ∧
    (applyFrame ⟨[⟨Role.user, "q"⟩, ⟨Role.assistant, "4"⟩], "4"⟩
        { error := some "boom" }).accumulated = "4" :=
  ⟨by decide,
   (error_frame_replaces_display_retains_accumulator
     ⟨[⟨Role.user, "q"⟩, ⟨Role.assistant, "4"⟩], "4"⟩ "boom" (by decide)).2⟩

/-- C2 counterexample: two different histories produce the same chat
request, so the start-a-chat-turn request cannot carry the
accumulated history. -/
theorem chat_request_ignores_history_counterexample :
    buildChatRequest "hi" [⟨Role.user, "prev"⟩] = buildChatRequest "hi" [] ∧
    ([⟨Role.user, "prev"⟩] : List Message) ≠ [] :=
  ⟨rfl, by decide⟩

/-- C2 (amended): the chat request sent by `handleSubmit` carries only
the new user message; the prior Messages held by the caller are not
sent as history. -/
theorem chat_request_message_only (userMessage : String) (history : List Message) :
    buildChatRequest userMessage history = { message := userMessage } := rfl

/-- C4: registering a remote server with http transport and no url is
rejected with a `ValidationError` and adds no RemoteToolServer row;
the frontend guard in `handleAddMcpServer` additionally sends no
request at all when the url field is empty. -/
theorem register_http_without_url_rejected (table : List RemoteToolServer)
    (s : RemoteToolServer) (ht : s.transport = Transport.http) (hu : s.url = none) :
    registerServer table s = Except.error "ValidationError: http transport requires url" ∧
    (∀ name command argsInput,
      handleAddMcpServer name command argsInput "" Transport.http = none) := by
  obtain ⟨n, tr, cmd, args, env, url, hdrs⟩ := s
  simp only at ht hu
  subst ht
  subst hu
  refine ⟨rfl, ?_⟩
  intro name command argsInput
  by_cases hn : name = ""
  · simp [handleAddMcpServer, hn]
  · simp [handleAddMcpServer, hn]

/-- Witness for C4 at a concrete registration. -/
theorem register_http_without_url_rejected_witness :
    registerServer [] { name := "srv", transport := Transport.http } =
      Except.error "ValidationError: http transport requires url" ∧
    handleAddMcpServer "srv" "" "" "" Transport.http = none :=
  ⟨(register_http_without_url_rejected [] { name := "srv", transport := Transport.http }
      rfl rfl).1,
   (register_http_without_url_rejected [] { name := "srv", transport := Transport.http }
      rfl rfl).2 "srv" "" ""⟩

/-- C5: the effective context of an enabled tool is the custom context
when it is non-empty and the default context otherwise; in particular
an empty-string custom context falls back to the default. -/
theorem effectiveContext_custom_or_default (t : Tool) (henabled : t.enabled = true) :
    (∀ c, t.custom_context = some c → c ≠ "" → effectiveContext t = c) ∧
    (t.custom_context = some "" → effectiveContext t = t.default_context) ∧
    (t.custom_context = none → effectiveContext t = t.default_context) := by
  refine ⟨?_, ?_, ?_⟩
  · intro c hc hne
    simp [effectiveContext, hc, hne]
  · intro hc
    simp [effectiveContext, hc]
  · intro hc
    simp [effectiveContext, hc]

/-- Witness for C5 at a concrete enabled tool. -/
theorem effectiveContext_custom_or_default_witness :
    effectiveContext
        { id := 1, name := "t", description := "d", default_context := "default"
          custom_context := some "custom", enabled := true, source := "built-in"
          mcp_server_name := none, tool_schema := none } = "custom" :=
  (effectiveContext_custom_or_default
    { id := 1, name := "t", description := "d", default_context := "default"
      custom_context := some "custom", enabled := true, source := "built-in"
      mcp_server_name := none, tool_schema := none } rfl).1 "custom" rfl (by decide)

/-- C6: an obtained token cached with its expiry is returned unchanged
(reused) exactly while the current time is below the expiry minus the
60-second safety margin; once the margin is reached, the callback
performs the refresh attempt before answering; and on initial sign-in
the token is cached together with the expiry of the account. -/
theorem jwt_token_reuse_and_refresh (nowMs : Nat) (token : JwtToken) (r : RefreshOutcome)
    (e : Nat) (rt : String) (he : token.expiresAt = some e) (he0 : e ≠ 0)
    (hrt : token.refreshToken = some rt) :
    ((nowMs : Int) < (e : Int) * 1000 - 60000 →
      jwtCallback nowMs token none r = token) ∧
    (¬ (nowMs : Int) < (e : Int) * 1000 - 60000 →
      jwtCallback nowMs token none r = applyRefresh nowMs token r) ∧
    (∀ acc : OAuthAccount, (jwtCallback nowMs token (some acc) r).expiresAt = acc.expires_at) := by
  obtain ⟨at_, it, rt', ex, err⟩ := token
  simp only at he hrt
  subst he
  subst hrt
  refine ⟨?_, ?_, ?_⟩
  · intro hlt
    simp only [jwtCallback]
    rw [if_pos ⟨he0, hlt⟩]
  · intro hge
    simp only [jwtCallback]
    rw [if_neg (fun hc => hge hc.2)]
  · intro acc
    rfl

/-- Witness for C6: a token 100 s from epoch is reused at time 0. -/
theorem jwt_token_reuse_and_refresh_witness :
    jwtCallback 0 { expiresAt := some 100, refreshToken := some "r" } none
        RefreshOutcome.failed =
      { expiresAt := some 100, refreshToken := some "r" } :=
  (jwt_token_reuse_and_refresh 0 { expiresAt := some 100, refreshToken := some "r" }
    RefreshOutcome.failed 100 "r" rfl (by decide) rfl).1 (by decide)

/-- C7: the tool update applies exactly the supplied fields — a toggle request changes
only `enabled`, and a save request changes only `custom_context`. -/
theorem updateTool_per_field (t : Tool) (ctx : String) :
    ((updateTool t (toggleBody t)).enabled = !t.enabled ∧
      (updateTool t (toggleBody t)).custom_context = t.custom_context ∧
      (updateTool t (toggleBody t)).id = t.id ∧
      (updateTool t (toggleBody t)).name = t.name ∧
      (updateTool t (toggleBody t)).description = t.description ∧
      (updateTool t (toggleBody t)).default_context = t.default_context ∧
      (updateTool t (toggleBody t)).source = t.source ∧
      (updateTool t (toggleBody t)).mcp_server_name = t.mcp_server_name ∧
      (updateTool t (toggleBody t)).tool_schema = t.tool_schema) ∧
    ((updateTool t (saveBody ctx)).custom_context = some ctx ∧
      (updateTool t (saveBody ctx)).enabled = t.enabled ∧
      (updateTool t (saveBody ctx)).id = t.id ∧
      (updateTool t (saveBody ctx)).name = t.name ∧
      (updateTool t (saveBody ctx)).description = t.description ∧
      (updateTool t (saveBody ctx)).default_context = t.default_context ∧
      (updateTool t (saveBody ctx)).source = t.source ∧
      (updateTool t (saveBody ctx)).mcp_server_name = t.mcp_server_name ∧
      (updateTool t (saveBody ctx)).tool_schema = t.tool_schema) :=
  ⟨⟨rfl, rfl, rfl, rfl, rfl, rfl, rfl, rfl, rfl⟩,
   ⟨rfl, rfl, rfl, rfl, rfl, rfl, rfl, rfl, rfl⟩⟩

/-- C8: `toggleServerExpanded` flips membership of exactly the given
id, leaves every other id unchanged, and is an involution. -/
theorem toggleServerExpanded_flips_exactly (serverId : String) (s : Finset String) :
    (serverId ∈ toggleServerExpanded serverId s ↔ serverId ∉ s) ∧
    (∀ x, x ≠ serverId → (x ∈ toggleServerExpanded serverId s ↔ x ∈ s)) ∧
    toggleServerExpanded serverId (toggleServerExpanded serverId s) = s := by
  by_cases h : serverId ∈ s
  · have h1 : toggleServerExpanded serverId s = s.erase serverId := by
      simp [toggleServerExpanded, h]
    refine ⟨?_, ?_, ?_⟩
    · rw [h1]
      simp [Finset.mem_erase, h]
    · intro x hx
      rw [h1]
      simp [Finset.mem_erase, hx]
    · rw [h1]
      have h2 : serverId ∉ s.erase serverId := Finset.not_mem_erase _ _
      simp [toggleServerExpanded, h2, Finset.insert_erase h]
  · have h1 : toggleServerExpanded serverId s = insert serverId s := by
      simp [toggleServerExpanded, h]
    refine ⟨?_, ?_, ?_⟩
    · rw [h1]
      simp [Finset.mem_insert, h]
    · intro x hx
      rw [h1]
      simp [Finset.mem_insert, hx]
    · rw [h1]
      have h2 : serverId ∈ insert serverId s := Finset.mem_insert_self _ _
      simp [toggleServerExpanded, h2, Finset.erase_insert h]

/-- Witness for C8: toggling `a` on the empty set leaves `b` out. -/
theorem toggleServerExpanded_flips_exactly_witness :
    (("b" : String) ∈ toggleServerExpanded "a" (∅ : Finset String)) ↔
      ("b" : String) ∈ (∅ : Finset String) :=
  (toggleServerExpanded_flips_exactly "a" ∅).2.1 "b" (by decide)

/-- C9: the registered args are the space-separated tokens of the
input, in order, with the tokens whose trimmed form is empty removed;
no registered arg is the empty string, and an empty input yields no
args. -/
theorem parseArgs_tokens (input : String) :
    (parseArgs input = (jsSplitSpace input).filter (fun a => jsTrim a != "")) ∧
    (∀ a, a ∈ parseArgs input → a ≠ "") ∧
    parseArgs "" = [] := by
  have hchar : ∀ inp : String,
      parseArgs inp = (jsSplitSpace inp).filter (fun a => jsTrim a != "") := by
    intro inp
    by_cases h : inp = ""
    · subst h
      decide
    · simp [parseArgs, h]
  refine ⟨hchar input, ?_, by decide⟩
  intro a ha hEq
  rw [hchar input] at ha
  have hcond := (List.mem_filter.mp ha).2
  subst hEq
  exact absurd hcond (by decide)

/-- Witness for C9 on a concrete argument string with doubled spaces. -/
theorem parseArgs_tokens_witness :
    ("-y" ∈ parseArgs "-y  tool") ∧ ("-y" : String) ≠ "" :=
  ⟨by decide, (parseArgs_tokens "-y  tool").2.1 "-y" (by decide)⟩

/-- C10: a line without the `data: ` prefix, or whose payload fails to
parse, leaves the consumer state (and so the message list) unchanged,
and processing of the remaining lines of the chunk continues from that
same state. -/
theorem malformed_sse_line_skipped (parse : String → Option SseFrame) (st : ChatState)
    (line : String) (rest : List String)
    (h : line.startsWith "data: " = false ∨ parse (line.drop 6) = none) :
    processLine parse st line = st ∧
    List.foldl (processLine parse) st (line :: rest) =
      List.foldl (processLine parse) st rest := by
  have h1 : processLine parse st line = st := by
    rcases h with h | h
    · simp [processLine, h]
    · by_cases hs : line.startsWith "data: "
      · simp [processLine, hs, h]
      · simp [processLine, hs]
  exact ⟨h1, by rw [List.foldl_cons, h1]⟩

/-- Witness for C10 on a line whose payload does not parse. -/
theorem malformed_sse_line_skipped_witness :
    processLine (fun _ => none) ⟨[], ""⟩ "data: nonsense" = ⟨[], ""⟩ :=
  (malformed_sse_line_skipped (fun _ => none) ⟨[], ""⟩ "data: nonsense" [] (Or.inr rfl)).1
